import Mathlib

/-
Verification development for the Möbius-strip analysis program
(`script.py`).  The Python class `MobiusStrip` is embedded shallowly:
NumPy/SciPy floating-point arrays over real numbers, methods as pure
functions of an explicit state value.  Floating-point rounding is not
modelled; all arithmetic is exact real arithmetic.
-/

open Real

/-- `np.linspace a b n` as a function of the sample index `j`:
`a + j*(b-a)/(n-1)`.  (For `n = 1` NumPy returns the single value `a`;
under the Lean convention `x/0 = 0` this definition agrees.) -/
noncomputable def linspace (a b : ℝ) (n : ℕ) (j : ℕ) : ℝ :=
  a + j * (b - a) / ((n : ℝ) - 1)

/-- `np.gradient` of `n` samples with uniform spacing `h` along one axis:
one-sided first-order differences at the two boundary indices, central
differences at interior indices (the NumPy default `edge_order=1`).
NumPy raises for `n < 2`; every use in the program has `n ≥ 2`.
The program also calls `np.gradient(arr, u_edge)` with the coordinate
array `u_edge = linspace 0 2π n`; since that grid is exactly uniform in
real arithmetic, the nonuniform interior formula reduces to the central
difference with `h = 2π/(n-1)` used here. -/
noncomputable def npGradient (h : ℝ) (n : ℕ) (f : ℕ → ℝ) (i : ℕ) : ℝ :=
  if i = 0 then (f 1 - f 0) / h
  else if i = n - 1 then (f (n - 1) - f (n - 2)) / h
  else (f (i + 1) - f (i - 1)) / (2 * h)

/-- Composite Simpson pair sum over `m` interval pairs with uniform
spacing `dx`: the scipy helper for composite Simpson, specialised to uniform spacing.
Covers sample indices `0 .. 2*m`. -/
noncomputable def basicSimpson (dx : ℝ) (f : ℕ → ℝ) (m : ℕ) : ℝ :=
  ∑ k in Finset.range m, dx / 3 * (f (2 * k) + 4 * f (2 * k + 1) + f (2 * k + 2))

/-- `scipy.integrate.simpson` on `n` uniformly spaced samples.
For odd `n` this is composite Simpson; for `n = 2` the trapezoidal rule;
for even `n ≥ 4` composite Simpson on the first `n-2` intervals plus
the Cartwright cubic correction on the last interval, which for uniform
spacing has weights `5*dx/12`, `2*dx/3`, `-dx/12` on the last three
samples.  The call `simpson(dl, u_edge)` in the program passes the uniform
coordinate array `u_edge`, for which the scipy nonuniform formulas reduce
to exactly these uniform-spacing weights with `dx = 2π/(n-1)`. -/
noncomputable def simpson (dx : ℝ) (n : ℕ) (f : ℕ → ℝ) : ℝ :=
  if n % 2 = 1 then basicSimpson dx f ((n - 1) / 2)
  else if n = 2 then dx / 2 * (f 0 + f 1)
  else if 4 ≤ n then
    basicSimpson dx f ((n - 2) / 2)
      + (5 * dx / 12 * f (n - 1) + 2 * dx / 3 * f (n - 2) - dx / 12 * f (n - 3))
  else 0

/-- The state of a constructed `MobiusStrip` object: the three constructor
arguments.  Every other attribute set in `__init__` (`u`, `v`, `U`, `V`,
`x`, `y`, `z`) is a deterministic function of these three and is embedded
below as a function of the state. -/
structure MobiusStrip where
  R : ℝ
  w : ℝ
  n : ℕ

/-- Construction failure modes.  The error taxonomy of the spec names
`InvalidParameter` for `R ≤ 0`, `w ≤ 0` or `n < 2`. -/
inductive InitError where
  | invalidParameter
deriving DecidableEq

/-- The constructor `MobiusStrip.__init__`, modelled as a fallible
builder so that "raises at construction time" is statable.  The Python
body performs no parameter validation and none of its operations
(`np.linspace`, `np.meshgrid`, elementwise trigonometry) can raise for a
natural-number `n`, so construction always succeeds. -/
def buildShape (R w : ℝ) (n : ℕ) : Except InitError MobiusStrip :=
  Except.ok { R := R, w := w, n := n }

namespace MobiusStrip

/-- `self.u = np.linspace(0, 2*np.pi, n)`. -/
noncomputable def u (s : MobiusStrip) : ℕ → ℝ :=
  linspace 0 (2 * π) s.n

/-- `self.v = np.linspace(-w/2, w/2, n)`. -/
noncomputable def v (s : MobiusStrip) : ℕ → ℝ :=
  linspace (-(s.w / 2)) (s.w / 2) s.n

/-- `self.U, self.V = np.meshgrid(self.u, self.v)` (the default xy
indexing): `U[i, j] = u[j]`. -/
noncomputable def U (s : MobiusStrip) (i j : ℕ) : ℝ := s.u j

/-- Second component of the meshgrid: `V[i, j] = v[i]`. -/
noncomputable def V (s : MobiusStrip) (i j : ℕ) : ℝ := s.v i

/-- `x` component of `_parametric_equations`:
`x = (R + v*cos(u/2)) * cos(u)`. -/
noncomputable def parametricX (s : MobiusStrip) (uu vv : ℝ) : ℝ :=
  (s.R + vv * Real.cos (uu / 2)) * Real.cos uu

/-- `y` component of `_parametric_equations`:
`y = (R + v*cos(u/2)) * sin(u)`. -/
noncomputable def parametricY (s : MobiusStrip) (uu vv : ℝ) : ℝ :=
  (s.R + vv * Real.cos (uu / 2)) * Real.sin uu

/-- `z` component of `_parametric_equations`: `z = v*sin(u/2)`. -/
noncomputable def parametricZ (s : MobiusStrip) (uu vv : ℝ) : ℝ :=
  vv * Real.sin (uu / 2)

/-- `self.x[i, j]`: elementwise application of the parametric equations
to the meshgrid. -/
noncomputable def x (s : MobiusStrip) (i j : ℕ) : ℝ :=
  s.parametricX (s.U i j) (s.V i j)

/-- `self.y[i, j]`. -/
noncomputable def y (s : MobiusStrip) (i j : ℕ) : ℝ :=
  s.parametricY (s.U i j) (s.V i j)

/-- `self.z[i, j]`. -/
noncomputable def z (s : MobiusStrip) (i j : ℕ) : ℝ :=
  s.parametricZ (s.U i j) (s.V i j)

/-- `self.x` as the concrete `(n, n)` array (list of rows), for the mesh
shape invariant. -/
noncomputable def meshX (s : MobiusStrip) : List (List ℝ) :=
  List.ofFn (fun i : Fin s.n => List.ofFn (fun j : Fin s.n => s.x i j))

/-- `self.y` as the concrete `(n, n)` array. -/
noncomputable def meshY (s : MobiusStrip) : List (List ℝ) :=
  List.ofFn (fun i : Fin s.n => List.ofFn (fun j : Fin s.n => s.y i j))

/-- `self.z` as the concrete `(n, n)` array. -/
noncomputable def meshZ (s : MobiusStrip) : List (List ℝ) :=
  List.ofFn (fun i : Fin s.n => List.ofFn (fun j : Fin s.n => s.z i j))

/-- `du = 2*np.pi / self.n` (line 41 of `compute_surface_area`). -/
noncomputable def du (s : MobiusStrip) : ℝ := 2 * π / s.n

/-- `dv = self.w / self.n` (line 42 of `compute_surface_area`). -/
noncomputable def dv (s : MobiusStrip) : ℝ := s.w / s.n

/-- `dx_du = np.gradient(self.x, du, axis=1)`. -/
noncomputable def dx_du (s : MobiusStrip) (i j : ℕ) : ℝ :=
  npGradient s.du s.n (fun k => s.x i k) j

/-- `dy_du = np.gradient(self.y, du, axis=1)`. -/
noncomputable def dy_du (s : MobiusStrip) (i j : ℕ) : ℝ :=
  npGradient s.du s.n (fun k => s.y i k) j

/-- `dz_du = np.gradient(self.z, du, axis=1)`. -/
noncomputable def dz_du (s : MobiusStrip) (i j : ℕ) : ℝ :=
  npGradient s.du s.n (fun k => s.z i k) j

/-- `dx_dv = np.gradient(self.x, dv, axis=0)`. -/
noncomputable def dx_dv (s : MobiusStrip) (i j : ℕ) : ℝ :=
  npGradient s.dv s.n (fun k => s.x k j) i

/-- `dy_dv = np.gradient(self.y, dv, axis=0)`. -/
noncomputable def dy_dv (s : MobiusStrip) (i j : ℕ) : ℝ :=
  npGradient s.dv s.n (fun k => s.y k j) i

/-- `dz_dv = np.gradient(self.z, dv, axis=0)`. -/
noncomputable def dz_dv (s : MobiusStrip) (i j : ℕ) : ℝ :=
  npGradient s.dv s.n (fun k => s.z k j) i

/-- `cross_x = dy_du * dz_dv - dz_du * dy_dv`. -/
noncomputable def cross_x (s : MobiusStrip) (i j : ℕ) : ℝ :=
  s.dy_du i j * s.dz_dv i j - s.dz_du i j * s.dy_dv i j

/-- `cross_y = dz_du * dx_dv - dx_du * dz_dv`. -/
noncomputable def cross_y (s : MobiusStrip) (i j : ℕ) : ℝ :=
  s.dz_du i j * s.dx_dv i j - s.dx_du i j * s.dz_dv i j

/-- `cross_z = dx_du * dy_dv - dy_du * dx_dv`. -/
noncomputable def cross_z (s : MobiusStrip) (i j : ℕ) : ℝ :=
  s.dx_du i j * s.dy_dv i j - s.dy_du i j * s.dx_dv i j

/-- `cross_mag = np.sqrt(cross_x**2 + cross_y**2 + cross_z**2)`. -/
noncomputable def cross_mag (s : MobiusStrip) (i j : ℕ) : ℝ :=
  Real.sqrt (s.cross_x i j ^ 2 + s.cross_y i j ^ 2 + s.cross_z i j ^ 2)

/-- `compute_surface_area`:
`area = simpson(simpson(cross_mag, dx=du, axis=1), dx=dv, axis=0)`. -/
noncomputable def compute_surface_area (s : MobiusStrip) : ℝ :=
  simpson s.dv s.n (fun i => simpson s.du s.n (fun j => s.cross_mag i j))

/-- `u_edge = np.linspace(0, 2*np.pi, self.n)` in `compute_edge_length`
(the same grid as `self.u`). -/
noncomputable def u_edge (s : MobiusStrip) : ℕ → ℝ :=
  linspace 0 (2 * π) s.n

/-- The uniform spacing of `u_edge`: `2π/(n-1)`.  Both
`np.gradient(·, u_edge)` and `simpson(·, u_edge)` reduce to their
uniform-spacing forms with this step on the exactly uniform grid. -/
noncomputable def edgeH (s : MobiusStrip) : ℝ := 2 * π / ((s.n : ℝ) - 1)

/-- Edge-curve `x` coordinates at fixed width offset `ve`:
`x, y, z = self._parametric_equations(u_edge, v_edge)`. -/
noncomputable def edgeX (s : MobiusStrip) (ve : ℝ) (j : ℕ) : ℝ :=
  s.parametricX (s.u_edge j) ve

/-- Edge-curve `y` coordinates at fixed width offset `ve`. -/
noncomputable def edgeY (s : MobiusStrip) (ve : ℝ) (j : ℕ) : ℝ :=
  s.parametricY (s.u_edge j) ve

/-- Edge-curve `z` coordinates at fixed width offset `ve`. -/
noncomputable def edgeZ (s : MobiusStrip) (ve : ℝ) (j : ℕ) : ℝ :=
  s.parametricZ (s.u_edge j) ve

/-- `dl = np.sqrt(dx**2 + dy**2 + dz**2)` where
`dx = np.gradient(x, u_edge)` etc. -/
noncomputable def edgeDl (s : MobiusStrip) (ve : ℝ) (i : ℕ) : ℝ :=
  Real.sqrt ((npGradient s.edgeH s.n (s.edgeX ve) i) ^ 2
    + (npGradient s.edgeH s.n (s.edgeY ve) i) ^ 2
    + (npGradient s.edgeH s.n (s.edgeZ ve) i) ^ 2)

/-- `length = simpson(dl, u_edge)`: the one-edge arc-length estimate of
the boundary curve sampled at width offset `ve`. -/
noncomputable def edgeLengthAt (s : MobiusStrip) (ve : ℝ) : ℝ :=
  simpson s.edgeH s.n (s.edgeDl ve)

/-- `compute_edge_length`: the one-edge estimate at `v_edge = w/2`
(line 73), doubled (`return length * 2`, line 89). -/
noncomputable def compute_edge_length (s : MobiusStrip) : ℝ :=
  2 * s.edgeLengthAt (s.w / 2)

/-- State-passing embedding of the method call
`area = mobius.compute_surface_area()`: the returned value together with
the post-call object state.  The method body assigns no attribute, so
the post-state is the pre-state. -/
noncomputable def surfaceAreaCall (s : MobiusStrip) : ℝ × MobiusStrip :=
  (s.compute_surface_area, s)

/-- State-passing embedding of `mobius.compute_edge_length()`. -/
noncomputable def edgeLengthCall (s : MobiusStrip) : ℝ × MobiusStrip :=
  (s.compute_edge_length, s)

end MobiusStrip

/- Numerics lemmas about the quadrature and finite-difference kernels. -/

theorem basicSimpson_nonneg {dx : ℝ} {f : ℕ → ℝ} (hdx : 0 ≤ dx)
    (hf : ∀ i, 0 ≤ f i) (m : ℕ) : 0 ≤ basicSimpson dx f m := by
  unfold basicSimpson
  refine Finset.sum_nonneg fun k _ => ?_
  have h0 := hf (2 * k)
  have h1 := hf (2 * k + 1)
  have h2 := hf (2 * k + 2)
  exact mul_nonneg (by linarith) (by linarith)

theorem simpson_even_regroup {dx : ℝ} {f : ℕ → ℝ} {n : ℕ}
    (he : n % 2 = 0) (h4 : 4 ≤ n) :
    simpson dx n f = basicSimpson dx f ((n - 4) / 2)
      + dx * ((1 / 3) * f (n - 4) + (5 / 4) * f (n - 3) + f (n - 2) + (5 / 12) * f (n - 1)) := by
  unfold simpson
  rw [if_neg (by omega : ¬ n % 2 = 1), if_neg (by omega : ¬ n = 2), if_pos h4]
  have hm : (n - 2) / 2 = (n - 4) / 2 + 1 := by omega
  rw [hm]
  unfold basicSimpson
  rw [Finset.sum_range_succ]
  have e1 : 2 * ((n - 4) / 2) = n - 4 := by omega
  rw [e1]
  have e2 : n - 4 + 1 = n - 3 := by omega
  have e3 : n - 4 + 2 = n - 2 := by omega
  rw [e2, e3]
  ring

theorem simpson_nonneg {dx : ℝ} {f : ℕ → ℝ} (hdx : 0 ≤ dx)
    (hf : ∀ i, 0 ≤ f i) (n : ℕ) : 0 ≤ simpson dx n f := by
  rcases Nat.even_or_odd n with he | ho
  · rcases eq_or_ne n 2 with h2 | h2
    · subst h2
      unfold simpson
      norm_num
      have h0 := hf 0
      have h1 := hf 1
      exact mul_nonneg (by linarith) (by linarith)
    · by_cases h4 : 4 ≤ n
      · rw [simpson_even_regroup (Nat.even_iff.mp he) h4]
        have hb := basicSimpson_nonneg hdx hf ((n - 4) / 2)
        have h0 := hf (n - 4)
        have h1 := hf (n - 3)
        have h2' := hf (n - 2)
        have h3 := hf (n - 1)
        have hc : 0 ≤ dx * ((1 / 3) * f (n - 4) + (5 / 4) * f (n - 3) + f (n - 2)
            + (5 / 12) * f (n - 1)) := mul_nonneg hdx (by linarith)
        linarith
      · have hn : n = 0 := by
          rcases Nat.even_iff.mp he with h
          omega
        subst hn
        unfold simpson
        norm_num
  · unfold simpson
    rw [if_pos (Nat.odd_iff.mp ho)]
    exact basicSimpson_nonneg hdx hf _

theorem basicSimpson_ge_head {dx : ℝ} {f : ℕ → ℝ} (hdx : 0 ≤ dx)
    (hf : ∀ i, 0 ≤ f i) {m : ℕ} (hm : 1 ≤ m) :
    dx / 3 * f 0 ≤ basicSimpson dx f m := by
  unfold basicSimpson
  obtain ⟨m', rfl⟩ : ∃ m', m = m' + 1 := ⟨m - 1, by omega⟩
  rw [Finset.sum_range_succ']
  have hrest : 0 ≤ ∑ k in Finset.range m',
      dx / 3 * (f (2 * (k + 1)) + 4 * f (2 * (k + 1) + 1) + f (2 * (k + 1) + 2)) := by
    refine Finset.sum_nonneg fun k _ => ?_
    have h0 := hf (2 * (k + 1))
    have h1 := hf (2 * (k + 1) + 1)
    have h2 := hf (2 * (k + 1) + 2)
    exact mul_nonneg (by linarith) (by linarith)
  have hterm0 : dx / 3 * f 0 ≤ dx / 3 * (f (2 * 0) + 4 * f (2 * 0 + 1) + f (2 * 0 + 2)) := by
    have h1 := hf (2 * 0 + 1)
    have h2 := hf (2 * 0 + 2)
    refine mul_le_mul_of_nonneg_left ?_ (by linarith)
    simp only [Nat.mul_zero]
    linarith
  linarith

theorem simpson_pos_head {dx : ℝ} {f : ℕ → ℝ} {n : ℕ} (hdx : 0 < dx)
    (hf : ∀ i, 0 ≤ f i) (h0 : 0 < f 0) (hn : 2 ≤ n) :
    0 < simpson dx n f := by
  rcases Nat.even_or_odd n with he | ho
  · rcases eq_or_ne n 2 with h2 | h2
    · subst h2
      unfold simpson
      norm_num
      have h1 := hf 1
      exact mul_pos (by linarith) (by linarith)
    · have h4 : 4 ≤ n := by
        rcases Nat.even_iff.mp he with h
        omega
      rw [simpson_even_regroup (Nat.even_iff.mp he) h4]
      rcases eq_or_ne n 4 with h4' | h4'
      · subst h4'
        norm_num
        unfold basicSimpson
        norm_num
        have h1 := hf 1
        have h2' := hf 2
        have h3 := hf 3
        have : 0 < (1 / 3) * f 0 + (5 / 4) * f 1 + f 2 + (5 / 12) * f 3 := by linarith
        exact mul_pos hdx this
      · have h6 : 6 ≤ n := by
          rcases Nat.even_iff.mp he with h
          omega
        have hhead := basicSimpson_ge_head hdx.le hf (show 1 ≤ (n - 4) / 2 by omega)
        have hpos : 0 < dx / 3 * f 0 := mul_pos (by linarith) h0
        have hc0 := hf (n - 4)
        have hc1 := hf (n - 3)
        have hc2 := hf (n - 2)
        have hc3 := hf (n - 1)
        have hc : 0 ≤ dx * ((1 / 3) * f (n - 4) + (5 / 4) * f (n - 3) + f (n - 2)
            + (5 / 12) * f (n - 1)) := mul_nonneg hdx.le (by linarith)
        linarith
  · unfold simpson
    rw [if_pos (Nat.odd_iff.mp ho)]
    have hm : 1 ≤ (n - 1) / 2 := by
      rcases Nat.odd_iff.mp ho with h
      omega
    have := basicSimpson_ge_head hdx.le hf hm
    have hpos : 0 < dx / 3 * f 0 := mul_pos (by linarith) h0
    linarith

theorem basicSimpson_congr {dx : ℝ} {f g : ℕ → ℝ} {m n : ℕ}
    (hmn : 2 * m < n) (h : ∀ i < n, f i = g i) :
    basicSimpson dx f m = basicSimpson dx g m := by
  unfold basicSimpson
  refine Finset.sum_congr rfl fun k hk => ?_
  rw [Finset.mem_range] at hk
  rw [h (2 * k) (by omega), h (2 * k + 1) (by omega), h (2 * k + 2) (by omega)]

theorem simpson_congr {dx : ℝ} {f g : ℕ → ℝ} {n : ℕ}
    (h : ∀ i < n, f i = g i) : simpson dx n f = simpson dx n g := by
  unfold simpson
  split_ifs with h1 h2 h3
  · exact basicSimpson_congr (by omega) h
  · rw [h 0 (by omega), h 1 (by omega)]
  · rw [basicSimpson_congr (by omega : 2 * ((n - 2) / 2) < n) h,
      h (n - 1) (by omega), h (n - 2) (by omega), h (n - 3) (by omega)]
  · rfl

theorem simpson_two (dx : ℝ) (g : ℕ → ℝ) : simpson dx 2 g = dx / 2 * (g 0 + g 1) := by
  unfold simpson
  norm_num

theorem simpson_reflect {dx : ℝ} {f : ℕ → ℝ} {n : ℕ}
    (h : n % 2 = 1 ∨ n = 2) :
    simpson dx n (fun i => f (n - 1 - i)) = simpson dx n f := by
  rcases h with ho | h2
  · unfold simpson
    rw [if_pos ho, if_pos ho]
    unfold basicSimpson
    have hn : n = 2 * ((n - 1) / 2) + 1 := by omega
    calc ∑ k in Finset.range ((n - 1) / 2),
          dx / 3 * (f (n - 1 - 2 * k) + 4 * f (n - 1 - (2 * k + 1)) + f (n - 1 - (2 * k + 2)))
        = ∑ k in Finset.range ((n - 1) / 2),
            (fun j => dx / 3 * (f (2 * j) + 4 * f (2 * j + 1) + f (2 * j + 2)))
              ((n - 1) / 2 - 1 - k) := by
          refine Finset.sum_congr rfl fun k hk => ?_
          rw [Finset.mem_range] at hk
          simp only []
          have e1 : n - 1 - 2 * k = 2 * ((n - 1) / 2 - 1 - k) + 2 := by omega
          have e2 : n - 1 - (2 * k + 1) = 2 * ((n - 1) / 2 - 1 - k) + 1 := by omega
          have e3 : n - 1 - (2 * k + 2) = 2 * ((n - 1) / 2 - 1 - k) := by omega
          rw [e1, e2, e3]
          ring
      _ = ∑ j in Finset.range ((n - 1) / 2),
            dx / 3 * (f (2 * j) + 4 * f (2 * j + 1) + f (2 * j + 2)) :=
          Finset.sum_range_reflect
            (fun j => dx / 3 * (f (2 * j) + 4 * f (2 * j + 1) + f (2 * j + 2)))
            ((n - 1) / 2)
  · subst h2
    rw [simpson_two, simpson_two]
    show dx / 2 * (f 1 + f 0) = dx / 2 * (f 0 + f 1)
    ring

theorem npGradient_congr {h : ℝ} {n : ℕ} {f g : ℕ → ℝ} (hn : 2 ≤ n)
    (hfg : ∀ j < n, f j = g j) {i : ℕ} (hi : i < n) :
    npGradient h n f i = npGradient h n g i := by
  unfold npGradient
  split_ifs with h0 hl
  · rw [hfg 0 (by omega), hfg 1 (by omega)]
  · rw [hfg (n - 1) (by omega), hfg (n - 2) (by omega)]
  · rw [hfg (i + 1) (by omega), hfg (i - 1) (by omega)]

theorem npGradient_neg (h : ℝ) (n : ℕ) (f : ℕ → ℝ) (i : ℕ) :
    npGradient h n (fun j => -f j) i = -npGradient h n f i := by
  unfold npGradient
  split_ifs <;> ring

theorem npGradient_reflect {h : ℝ} {n : ℕ} {f : ℕ → ℝ} (hn : 2 ≤ n)
    {i : ℕ} (hi : i < n) :
    npGradient h n (fun j => f (n - 1 - j)) i = -npGradient h n f (n - 1 - i) := by
  unfold npGradient
  rcases eq_or_ne i 0 with h0 | h0
  · subst h0
    rw [if_pos rfl, if_neg (by omega : ¬ n - 1 - 0 = 0),
      if_pos (by omega : n - 1 - 0 = n - 1)]
    simp only []
    have e1 : n - 1 - 1 = n - 2 := by omega
    have e2 : n - 1 - 0 = n - 1 := by omega
    rw [e1, e2]
    ring
  · rcases eq_or_ne i (n - 1) with hl | hl
    · rw [if_neg h0, if_pos hl, if_pos (by omega : n - 1 - i = 0)]
      simp only []
      have e1 : n - 1 - (n - 1) = 0 := by omega
      have e2 : n - 1 - (n - 2) = 1 := by omega
      rw [e1, e2]
      ring
    · rw [if_neg h0, if_neg hl, if_neg (by omega : ¬ n - 1 - i = 0),
        if_neg (by omega : ¬ n - 1 - i = n - 1)]
      simp only []
      have e1 : n - 1 - (i + 1) = n - 1 - i - 1 := by omega
      have e2 : n - 1 - (i - 1) = n - 1 - i + 1 := by omega
      rw [e1, e2]
      ring

theorem sqrt_div_sq {a c : ℝ} (ha : 0 ≤ a) (hc : 0 < c) :
    Real.sqrt (a / c ^ 2) = Real.sqrt a / c := by
  rw [Real.sqrt_div ha, Real.sqrt_sq hc.le]

theorem getD_ofFn {α : Type*} {n : ℕ} (f : Fin n → α) {i : ℕ} (h : i < n) (d : α) :
    (List.ofFn f).getD i d = f ⟨i, h⟩ := by
  rw [List.getD_eq_getElem _ _ (by simp [h]), List.getElem_ofFn]

theorem npGradient_zero (h : ℝ) (n : ℕ) (f : ℕ → ℝ) :
    npGradient h n f 0 = (f 1 - f 0) / h := by
  unfold npGradient
  simp

theorem npGradient_last {n : ℕ} (h : ℝ) (f : ℕ → ℝ) (hn : 2 ≤ n) :
    npGradient h n f (n - 1) = (f (n - 1) - f (n - 2)) / h := by
  unfold npGradient
  rcases eq_or_ne (n - 1) 0 with h0 | h0
  · omega
  · rw [if_neg h0, if_pos rfl]

theorem npGradient_interior {n i : ℕ} (h : ℝ) (f : ℕ → ℝ)
    (h0 : 0 < i) (hl : i < n - 1) :
    npGradient h n f i = (f (i + 1) - f (i - 1)) / (2 * h) := by
  unfold npGradient
  rw [if_neg (by omega), if_neg (by omega)]

/-- Claim C5: for all real u and v, the Parametric Evaluator returns
exactly x = (R + v·cos(u/2))·cos u, y = (R + v·cos(u/2))·sin u,
z = v·sin(u/2); it is total and side-effect-free (embedded as a pure
function on all of ℝ × ℝ), and the elementwise mesh evaluation applies
the very same formulas at the grid nodes. -/
theorem C5_parametric_evaluator (s : MobiusStrip) (uu vv : ℝ) (i j : ℕ) :
    s.parametricX uu vv = (s.R + vv * Real.cos (uu / 2)) * Real.cos uu
    ∧ s.parametricY uu vv = (s.R + vv * Real.cos (uu / 2)) * Real.sin uu
    ∧ s.parametricZ uu vv = vv * Real.sin (uu / 2)
    ∧ s.x i j = s.parametricX (s.u j) (s.v i)
    ∧ s.y i j = s.parametricY (s.u j) (s.v i)
    ∧ s.z i j = s.parametricZ (s.u j) (s.v i) :=
  ⟨rfl, rfl, rfl, rfl, rfl, rfl⟩

/-- Claim C10: at v = 0 the Parametric Evaluator yields z = 0 and
x² + y² = R² for every real u: the centerline of the strip is exactly
the circle of radius R in the z = 0 plane. -/
theorem C10_centerline_is_circle (s : MobiusStrip) (uu : ℝ) :
    s.parametricZ uu 0 = 0
    ∧ s.parametricX uu 0 ^ 2 + s.parametricY uu 0 ^ 2 = s.R ^ 2 := by
  constructor
  · simp [MobiusStrip.parametricZ]
  · unfold MobiusStrip.parametricX MobiusStrip.parametricY
    have h := Real.sin_sq_add_cos_sq uu
    linear_combination s.R ^ 2 * h

/-- Claim C9: `compute_surface_area` and `compute_edge_length` leave the
object state unchanged (no attribute of the shape — parameters, grids,
or mesh — is written), so repeated calls on the same handle return equal
results.  Stated over the state-passing embedding of the method calls. -/
theorem C9_methods_leave_state_unchanged (s : MobiusStrip) :
    s.surfaceAreaCall.2 = s
    ∧ s.edgeLengthCall.2 = s
    ∧ s.surfaceAreaCall.2.R = s.R ∧ s.surfaceAreaCall.2.w = s.w
    ∧ s.surfaceAreaCall.2.n = s.n
    ∧ s.surfaceAreaCall.2.u = s.u ∧ s.surfaceAreaCall.2.v = s.v
    ∧ s.surfaceAreaCall.2.x = s.x ∧ s.surfaceAreaCall.2.y = s.y
    ∧ s.surfaceAreaCall.2.z = s.z
    ∧ s.edgeLengthCall.2.u = s.u ∧ s.edgeLengthCall.2.v = s.v
    ∧ s.edgeLengthCall.2.x = s.x ∧ s.edgeLengthCall.2.y = s.y
    ∧ s.edgeLengthCall.2.z = s.z
    ∧ s.surfaceAreaCall.2.surfaceAreaCall.1 = s.surfaceAreaCall.1
    ∧ s.edgeLengthCall.2.edgeLengthCall.1 = s.edgeLengthCall.1
    ∧ (s.surfaceAreaCall.2.edgeLengthCall.2.surfaceAreaCall.1
        = s.surfaceAreaCall.1) :=
  ⟨rfl, rfl, rfl, rfl, rfl, rfl, rfl, rfl, rfl, rfl, rfl, rfl, rfl, rfl, rfl,
    rfl, rfl, rfl⟩

/-- Claim C1 is false of the code: constructing with R = 0, w = 0, n = 1
does not raise `InvalidParameter` — the constructor performs no
validation, succeeds, and a complete (1 × 1) mesh is observable. -/
theorem C1_counterexample :
    buildShape 0 0 1 = Except.ok { R := 0, w := 0, n := 1 }
    ∧ buildShape 0 0 1 ≠ Except.error InitError.invalidParameter
    ∧ (MobiusStrip.meshX { R := 0, w := 0, n := 1 }).length = 1
    ∧ ((MobiusStrip.meshX { R := 0, w := 0, n := 1 }).getD 0 []).length = 1 := by
  refine ⟨rfl, by simp [buildShape], by simp [MobiusStrip.meshX], ?_⟩
  rw [MobiusStrip.meshX, getD_ofFn _ (by norm_num)]
  simp

/-- Claim C1 (amended): the constructor validates nothing and can never
fail — for every R, w and every natural n (including R ≤ 0, w ≤ 0,
n < 2) `buildShape` returns `ok` with the given parameters, and the mesh
of the constructed shape is a complete n × n array. -/
theorem C1_construction_never_raises (R w : ℝ) (n : ℕ) :
    buildShape R w n = Except.ok { R := R, w := w, n := n }
    ∧ (MobiusStrip.meshX { R := R, w := w, n := n }).length = n
    ∧ (MobiusStrip.meshY { R := R, w := w, n := n }).length = n
    ∧ (MobiusStrip.meshZ { R := R, w := w, n := n }).length = n := by
  exact ⟨rfl, by simp [MobiusStrip.meshX], by simp [MobiusStrip.meshY],
    by simp [MobiusStrip.meshZ]⟩

/-- Claim C2 is false of the code: at R = 1, w = 1, n = 2 the step
supplied to the finite-difference and quadrature routines is
dv = w/n = 1/2, while the actual v-grid spacing is w/(n-1) = 1; likewise
du = 2π/2 = π while the u-grid spacing is 2π.  The supplied steps are
not the grid spacings. -/
theorem C2_counterexample :
    MobiusStrip.dv { R := 1, w := 1, n := 2 } = 1 / 2
    ∧ MobiusStrip.v { R := 1, w := 1, n := 2 } 1
        - MobiusStrip.v { R := 1, w := 1, n := 2 } 0 = 1
    ∧ MobiusStrip.du { R := 1, w := 1, n := 2 } = π
    ∧ MobiusStrip.u { R := 1, w := 1, n := 2 } 1
        - MobiusStrip.u { R := 1, w := 1, n := 2 } 0 = 2 * π
    ∧ ((1 : ℝ) / 2) ≠ 1
    ∧ π ≠ 2 * π := by
  refine ⟨?_, ?_, ?_, ?_, by norm_num, ?_⟩
  · unfold MobiusStrip.dv
    norm_num
  · unfold MobiusStrip.v linspace
    norm_num
  · unfold MobiusStrip.du
    norm_num
  · unfold MobiusStrip.u linspace
    norm_num
  · have := Real.pi_pos
    intro h
    nlinarith

/-- Claim C2 (amended): for every valid shape the v grid is n uniformly
spaced samples over [−w/2, w/2] with step w/(n−1), and the u grid is n
uniformly spaced endpoint-inclusive samples over [0, 2π] with step
2π/(n−1); however, the step sizes supplied to the finite-difference and
quadrature routines are du = 2π/n and dv = w/n, which differ from the
actual grid spacings. -/
theorem C2_grid_uniform_but_steps_mismatch (s : MobiusStrip) (j : ℕ)
    (hR : 0 < s.R) (hw : 0 < s.w) (hn : 2 ≤ s.n) (hj : j + 1 < s.n) :
    s.v 0 = -(s.w / 2)
    ∧ s.v (s.n - 1) = s.w / 2
    ∧ s.v (j + 1) - s.v j = s.w / ((s.n : ℝ) - 1)
    ∧ s.u 0 = 0
    ∧ s.u (s.n - 1) = 2 * π
    ∧ s.u (j + 1) - s.u j = 2 * π / ((s.n : ℝ) - 1)
    ∧ s.du = 2 * π / (s.n : ℝ)
    ∧ s.dv = s.w / (s.n : ℝ)
    ∧ s.dv ≠ s.w / ((s.n : ℝ) - 1)
    ∧ s.du ≠ 2 * π / ((s.n : ℝ) - 1) := by
  have hN : (2 : ℝ) ≤ (s.n : ℝ) := by exact_mod_cast hn
  have hN0 : (s.n : ℝ) ≠ 0 := by linarith
  have hN1 : (s.n : ℝ) - 1 ≠ 0 := by linarith
  have hcast : ((s.n - 1 : ℕ) : ℝ) = (s.n : ℝ) - 1 := by
    rw [Nat.cast_sub (by omega)]
    norm_num
  refine ⟨?_, ?_, ?_, ?_, ?_, ?_, rfl, rfl, ?_, ?_⟩
  · unfold MobiusStrip.v linspace
    norm_num
  · unfold MobiusStrip.v linspace
    rw [hcast]
    field_simp
    ring
  · unfold MobiusStrip.v linspace
    push_cast
    field_simp
    ring
  · unfold MobiusStrip.u linspace
    norm_num
  · unfold MobiusStrip.u linspace
    rw [hcast]
    field_simp
  · unfold MobiusStrip.u linspace
    push_cast
    field_simp
    ring
  · unfold MobiusStrip.dv
    intro h
    rw [div_eq_div_iff hN0 hN1] at h
    have : s.w * ((s.n : ℝ) - 1) - s.w * (s.n : ℝ) = 0 := by linarith
    have hwz : s.w = 0 := by nlinarith
    linarith
  · unfold MobiusStrip.du
    have hpi := Real.pi_pos
    intro h
    rw [div_eq_div_iff hN0 hN1] at h
    nlinarith

/-- Claim C4: for every valid shape the mesh consists of three
coordinate arrays of identical shape (n, n), and for all indices
i, j < n the (i, j) element of each array equals the corresponding
component of the Parametric Evaluator at (u_j, v_i) — the same
row-i ↔ v_i, column-j ↔ u_j alignment in all three arrays. -/
theorem C4_mesh_shape_and_alignment (s : MobiusStrip) (i j : ℕ)
    (hR : 0 < s.R) (hw : 0 < s.w) (hn : 2 ≤ s.n) (hi : i < s.n) (hj : j < s.n) :
    s.meshX.length = s.n ∧ s.meshY.length = s.n ∧ s.meshZ.length = s.n
    ∧ (s.meshX.getD i []).length = s.n
    ∧ (s.meshY.getD i []).length = s.n
    ∧ (s.meshZ.getD i []).length = s.n
    ∧ (s.meshX.getD i []).getD j 0 = s.parametricX (s.u j) (s.v i)
    ∧ (s.meshY.getD i []).getD j 0 = s.parametricY (s.u j) (s.v i)
    ∧ (s.meshZ.getD i []).getD j 0 = s.parametricZ (s.u j) (s.v i) := by
  unfold MobiusStrip.meshX MobiusStrip.meshY MobiusStrip.meshZ
  rw [getD_ofFn _ hi, getD_ofFn _ hi, getD_ofFn _ hi,
    getD_ofFn _ hj, getD_ofFn _ hj, getD_ofFn _ hj]
  refine ⟨by simp, by simp, by simp, by simp, by simp, by simp, rfl, rfl, rfl⟩

/-- Witness for C4 at the valid shape R = 1, w = 1, n = 2 with
i = 0, j = 1. -/
theorem C4_mesh_shape_and_alignment_witness :
    (MobiusStrip.meshX { R := 1, w := 1, n := 2 }).length = 2
    ∧ (MobiusStrip.meshY { R := 1, w := 1, n := 2 }).length = 2
    ∧ (MobiusStrip.meshZ { R := 1, w := 1, n := 2 }).length = 2
    ∧ ((MobiusStrip.meshX { R := 1, w := 1, n := 2 }).getD 0 []).length = 2
    ∧ ((MobiusStrip.meshY { R := 1, w := 1, n := 2 }).getD 0 []).length = 2
    ∧ ((MobiusStrip.meshZ { R := 1, w := 1, n := 2 }).getD 0 []).length = 2
    ∧ ((MobiusStrip.meshX { R := 1, w := 1, n := 2 }).getD 0 []).getD 1 0
        = MobiusStrip.parametricX { R := 1, w := 1, n := 2 }
            (MobiusStrip.u { R := 1, w := 1, n := 2 } 1)
            (MobiusStrip.v { R := 1, w := 1, n := 2 } 0)
    ∧ ((MobiusStrip.meshY { R := 1, w := 1, n := 2 }).getD 0 []).getD 1 0
        = MobiusStrip.parametricY { R := 1, w := 1, n := 2 }
            (MobiusStrip.u { R := 1, w := 1, n := 2 } 1)
            (MobiusStrip.v { R := 1, w := 1, n := 2 } 0)
    ∧ ((MobiusStrip.meshZ { R := 1, w := 1, n := 2 }).getD 0 []).getD 1 0
        = MobiusStrip.parametricZ { R := 1, w := 1, n := 2 }
            (MobiusStrip.u { R := 1, w := 1, n := 2 } 1)
            (MobiusStrip.v { R := 1, w := 1, n := 2 } 0) :=
  C4_mesh_shape_and_alignment { R := 1, w := 1, n := 2 } 0 1
    (by norm_num) (by norm_num) (by norm_num) (by norm_num) (by norm_num)

/-- Claim C8: each of the six derivative arrays uses central differences
at every interior index of the differentiated axis and one-sided
differences at the first and last index, the same convention in all six
(all are `np.gradient` with default `edge_order=1`). -/
theorem C8_gradient_convention (s : MobiusStrip) (i j : ℕ)
    (hn : 2 ≤ s.n) (hi : i < s.n) (hj : j < s.n) :
    (j = 0 →
      s.dx_du i j = (s.x i 1 - s.x i 0) / s.du
      ∧ s.dy_du i j = (s.y i 1 - s.y i 0) / s.du
      ∧ s.dz_du i j = (s.z i 1 - s.z i 0) / s.du)
    ∧ (j = s.n - 1 →
      s.dx_du i j = (s.x i (s.n - 1) - s.x i (s.n - 2)) / s.du
      ∧ s.dy_du i j = (s.y i (s.n - 1) - s.y i (s.n - 2)) / s.du
      ∧ s.dz_du i j = (s.z i (s.n - 1) - s.z i (s.n - 2)) / s.du)
    ∧ (0 < j → j < s.n - 1 →
      s.dx_du i j = (s.x i (j + 1) - s.x i (j - 1)) / (2 * s.du)
      ∧ s.dy_du i j = (s.y i (j + 1) - s.y i (j - 1)) / (2 * s.du)
      ∧ s.dz_du i j = (s.z i (j + 1) - s.z i (j - 1)) / (2 * s.du))
    ∧ (i = 0 →
      s.dx_dv i j = (s.x 1 j - s.x 0 j) / s.dv
      ∧ s.dy_dv i j = (s.y 1 j - s.y 0 j) / s.dv
      ∧ s.dz_dv i j = (s.z 1 j - s.z 0 j) / s.dv)
    ∧ (i = s.n - 1 →
      s.dx_dv i j = (s.x (s.n - 1) j - s.x (s.n - 2) j) / s.dv
      ∧ s.dy_dv i j = (s.y (s.n - 1) j - s.y (s.n - 2) j) / s.dv
      ∧ s.dz_dv i j = (s.z (s.n - 1) j - s.z (s.n - 2) j) / s.dv)
    ∧ (0 < i → i < s.n - 1 →
      s.dx_dv i j = (s.x (i + 1) j - s.x (i - 1) j) / (2 * s.dv)
      ∧ s.dy_dv i j = (s.y (i + 1) j - s.y (i - 1) j) / (2 * s.dv)
      ∧ s.dz_dv i j = (s.z (i + 1) j - s.z (i - 1) j) / (2 * s.dv)) := by
  refine ⟨?_, ?_, ?_, ?_, ?_, ?_⟩
  · rintro rfl
    exact ⟨npGradient_zero _ _ _, npGradient_zero _ _ _, npGradient_zero _ _ _⟩
  · rintro rfl
    exact ⟨npGradient_last _ _ hn, npGradient_last _ _ hn, npGradient_last _ _ hn⟩
  · intro h1 h2
    exact ⟨npGradient_interior _ _ h1 h2, npGradient_interior _ _ h1 h2,
      npGradient_interior _ _ h1 h2⟩
  · rintro rfl
    exact ⟨npGradient_zero _ _ _, npGradient_zero _ _ _, npGradient_zero _ _ _⟩
  · rintro rfl
    exact ⟨npGradient_last _ _ hn, npGradient_last _ _ hn, npGradient_last _ _ hn⟩
  · intro h1 h2
    exact ⟨npGradient_interior _ _ h1 h2, npGradient_interior _ _ h1 h2,
      npGradient_interior _ _ h1 h2⟩

/-- Witness for C8 at the shape R = 1, w = 1, n = 3 with i = 1, j = 0. -/
theorem C8_gradient_convention_witness :
    ((0 : ℕ) = 0 →
      MobiusStrip.dx_du { R := 1, w := 1, n := 3 } 1 0
        = (MobiusStrip.x { R := 1, w := 1, n := 3 } 1 1
            - MobiusStrip.x { R := 1, w := 1, n := 3 } 1 0)
          / MobiusStrip.du { R := 1, w := 1, n := 3 }
      ∧ MobiusStrip.dy_du { R := 1, w := 1, n := 3 } 1 0
        = (MobiusStrip.y { R := 1, w := 1, n := 3 } 1 1
            - MobiusStrip.y { R := 1, w := 1, n := 3 } 1 0)
          / MobiusStrip.du { R := 1, w := 1, n := 3 }
      ∧ MobiusStrip.dz_du { R := 1, w := 1, n := 3 } 1 0
        = (MobiusStrip.z { R := 1, w := 1, n := 3 } 1 1
            - MobiusStrip.z { R := 1, w := 1, n := 3 } 1 0)
          / MobiusStrip.du { R := 1, w := 1, n := 3 })
    ∧ ((0 : ℕ) = 3 - 1 →
      MobiusStrip.dx_du { R := 1, w := 1, n := 3 } 1 0
        = (MobiusStrip.x { R := 1, w := 1, n := 3 } 1 (3 - 1)
            - MobiusStrip.x { R := 1, w := 1, n := 3 } 1 (3 - 2))
          / MobiusStrip.du { R := 1, w := 1, n := 3 }
      ∧ MobiusStrip.dy_du { R := 1, w := 1, n := 3 } 1 0
        = (MobiusStrip.y { R := 1, w := 1, n := 3 } 1 (3 - 1)
            - MobiusStrip.y { R := 1, w := 1, n := 3 } 1 (3 - 2))
          / MobiusStrip.du { R := 1, w := 1, n := 3 }
      ∧ MobiusStrip.dz_du { R := 1, w := 1, n := 3 } 1 0
        = (MobiusStrip.z { R := 1, w := 1, n := 3 } 1 (3 - 1)
            - MobiusStrip.z { R := 1, w := 1, n := 3 } 1 (3 - 2))
          / MobiusStrip.du { R := 1, w := 1, n := 3 })
    ∧ (0 < 0 → 0 < 3 - 1 →
      MobiusStrip.dx_du { R := 1, w := 1, n := 3 } 1 0
        = (MobiusStrip.x { R := 1, w := 1, n := 3 } 1 (0 + 1)
            - MobiusStrip.x { R := 1, w := 1, n := 3 } 1 (0 - 1))
          / (2 * MobiusStrip.du { R := 1, w := 1, n := 3 })
      ∧ MobiusStrip.dy_du { R := 1, w := 1, n := 3 } 1 0
        = (MobiusStrip.y { R := 1, w := 1, n := 3 } 1 (0 + 1)
            - MobiusStrip.y { R := 1, w := 1, n := 3 } 1 (0 - 1))
          / (2 * MobiusStrip.du { R := 1, w := 1, n := 3 })
      ∧ MobiusStrip.dz_du { R := 1, w := 1, n := 3 } 1 0
        = (MobiusStrip.z { R := 1, w := 1, n := 3 } 1 (0 + 1)
            - MobiusStrip.z { R := 1, w := 1, n := 3 } 1 (0 - 1))
          / (2 * MobiusStrip.du { R := 1, w := 1, n := 3 }))
    ∧ (1 = 0 →
      MobiusStrip.dx_dv { R := 1, w := 1, n := 3 } 1 0
        = (MobiusStrip.x { R := 1, w := 1, n := 3 } 1 0
            - MobiusStrip.x { R := 1, w := 1, n := 3 } 0 0)
          / MobiusStrip.dv { R := 1, w := 1, n := 3 }
      ∧ MobiusStrip.dy_dv { R := 1, w := 1, n := 3 } 1 0
        = (MobiusStrip.y { R := 1, w := 1, n := 3 } 1 0
            - MobiusStrip.y { R := 1, w := 1, n := 3 } 0 0)
          / MobiusStrip.dv { R := 1, w := 1, n := 3 }
      ∧ MobiusStrip.dz_dv { R := 1, w := 1, n := 3 } 1 0
        = (MobiusStrip.z { R := 1, w := 1, n := 3 } 1 0
            - MobiusStrip.z { R := 1, w := 1, n := 3 } 0 0)
          / MobiusStrip.dv { R := 1, w := 1, n := 3 })
    ∧ (1 = 3 - 1 →
      MobiusStrip.dx_dv { R := 1, w := 1, n := 3 } 1 0
        = (MobiusStrip.x { R := 1, w := 1, n := 3 } (3 - 1) 0
            - MobiusStrip.x { R := 1, w := 1, n := 3 } (3 - 2) 0)
          / MobiusStrip.dv { R := 1, w := 1, n := 3 }
      ∧ MobiusStrip.dy_dv { R := 1, w := 1, n := 3 } 1 0
        = (MobiusStrip.y { R := 1, w := 1, n := 3 } (3 - 1) 0
            - MobiusStrip.y { R := 1, w := 1, n := 3 } (3 - 2) 0)
          / MobiusStrip.dv { R := 1, w := 1, n := 3 }
      ∧ MobiusStrip.dz_dv { R := 1, w := 1, n := 3 } 1 0
        = (MobiusStrip.z { R := 1, w := 1, n := 3 } (3 - 1) 0
            - MobiusStrip.z { R := 1, w := 1, n := 3 } (3 - 2) 0)
          / MobiusStrip.dv { R := 1, w := 1, n := 3 })
    ∧ (0 < 1 → 1 < 3 - 1 →
      MobiusStrip.dx_dv { R := 1, w := 1, n := 3 } 1 0
        = (MobiusStrip.x { R := 1, w := 1, n := 3 } (1 + 1) 0
            - MobiusStrip.x { R := 1, w := 1, n := 3 } (1 - 1) 0)
          / (2 * MobiusStrip.dv { R := 1, w := 1, n := 3 })
      ∧ MobiusStrip.dy_dv { R := 1, w := 1, n := 3 } 1 0
        = (MobiusStrip.y { R := 1, w := 1, n := 3 } (1 + 1) 0
            - MobiusStrip.y { R := 1, w := 1, n := 3 } (1 - 1) 0)
          / (2 * MobiusStrip.dv { R := 1, w := 1, n := 3 })
      ∧ MobiusStrip.dz_dv { R := 1, w := 1, n := 3 } 1 0
        = (MobiusStrip.z { R := 1, w := 1, n := 3 } (1 + 1) 0
            - MobiusStrip.z { R := 1, w := 1, n := 3 } (1 - 1) 0)
          / (2 * MobiusStrip.dv { R := 1, w := 1, n := 3 })) :=
  C8_gradient_convention { R := 1, w := 1, n := 3 } 1 0
    (by norm_num) (by norm_num) (by norm_num)

/-- If both samples of a 2-sample array vanish, so does its gradient at
every index. -/
theorem npGradient_two_eq_zero {h : ℝ} {f : ℕ → ℝ}
    (h0 : f 0 = 0) (h1 : f 1 = 0) {j : ℕ} (hj : j < 2) :
    npGradient h 2 f j = 0 := by
  unfold npGradient
  interval_cases j
  · rw [if_pos rfl, h0, h1]
    simp
  · rw [if_neg (by norm_num), if_pos (by norm_num),
      show (2 : ℕ) - 1 = 1 by norm_num, show (2 : ℕ) - 2 = 0 by norm_num, h0, h1]
    simp

/-- Claim C3 (amended): for every valid shape (R > 0, w > 0, n ≥ 2),
`compute_surface_area` returns a single nonnegative scalar (finite by
construction in the real-number embedding).  The second half of the
original claim — result exactly 0 only when w = 0 — is false of the code; see the
counterexample (area = 0 at the valid shape R = 1, w = 1, n = 2). -/
theorem C3_surface_area_nonneg (s : MobiusStrip)
    (hR : 0 < s.R) (hw : 0 < s.w) (hn : 2 ≤ s.n) :
    0 ≤ s.compute_surface_area := by
  unfold MobiusStrip.compute_surface_area
  have hdu : 0 ≤ s.du := by
    unfold MobiusStrip.du
    have := Real.pi_pos
    exact div_nonneg (by linarith) (Nat.cast_nonneg _)
  have hdv : 0 ≤ s.dv := by
    unfold MobiusStrip.dv
    exact div_nonneg hw.le (Nat.cast_nonneg _)
  exact simpson_nonneg hdv
    (fun i => simpson_nonneg hdu (fun j => Real.sqrt_nonneg _) s.n) s.n

/-- Witness for C3 (amended) at the valid shape R = 2, w = 1, n = 5. -/
theorem C3_surface_area_nonneg_witness :
    0 ≤ MobiusStrip.compute_surface_area { R := 2, w := 1, n := 5 } :=
  C3_surface_area_nonneg { R := 2, w := 1, n := 5 }
    (by norm_num) (by norm_num) (by norm_num)

/-- Claim C3 is false of the code as stated: at the valid shape
R = 1, w = 1, n = 2 (so w > 0), the computed surface area is exactly 0.
With n = 2 the u samples are 0 and 2π, where sin u = 0 and sin(u/2) = 0,
so the y and z mesh arrays vanish identically, every cross-product
component vanishes, and both Simpson passes integrate the zero field. -/
theorem C3_counterexample :
    (0 : ℝ) < 1 ∧ 2 ≤ 2
    ∧ MobiusStrip.compute_surface_area { R := 1, w := 1, n := 2 } = 0 := by
  refine ⟨by norm_num, le_refl 2, ?_⟩
  set s : MobiusStrip := { R := 1, w := 1, n := 2 } with hs
  have hu0 : s.u 0 = 0 := by
    unfold MobiusStrip.u linspace
    norm_num
  have hu1 : s.u 1 = 2 * π := by
    unfold MobiusStrip.u linspace
    norm_num
  have hy : ∀ i j, j < 2 → s.y i j = 0 := by
    intro i j hj
    unfold MobiusStrip.y MobiusStrip.parametricY MobiusStrip.U MobiusStrip.V
    interval_cases j
    · rw [hu0]
      simp
    · rw [hu1]
      simp [Real.sin_two_pi]
  have hz : ∀ i j, j < 2 → s.z i j = 0 := by
    intro i j hj
    unfold MobiusStrip.z MobiusStrip.parametricZ MobiusStrip.U MobiusStrip.V
    interval_cases j
    · rw [hu0]
      simp
    · rw [hu1, show 2 * π / 2 = π by ring, Real.sin_pi, mul_zero]
  have hydu : ∀ i j, j < 2 → s.dy_du i j = 0 := by
    intro i j hj
    exact npGradient_two_eq_zero (hy i 0 (by norm_num)) (hy i 1 (by norm_num)) hj
  have hzdu : ∀ i j, j < 2 → s.dz_du i j = 0 := by
    intro i j hj
    exact npGradient_two_eq_zero (hz i 0 (by norm_num)) (hz i 1 (by norm_num)) hj
  have hydv : ∀ i j, i < 2 → j < 2 → s.dy_dv i j = 0 := by
    intro i j hi hj
    exact npGradient_two_eq_zero (hy 0 j hj) (hy 1 j hj) hi
  have hzdv : ∀ i j, i < 2 → j < 2 → s.dz_dv i j = 0 := by
    intro i j hi hj
    exact npGradient_two_eq_zero (hz 0 j hj) (hz 1 j hj) hi
  have hmag : ∀ i j, i < 2 → j < 2 → s.cross_mag i j = 0 := by
    intro i j hi hj
    unfold MobiusStrip.cross_mag MobiusStrip.cross_x MobiusStrip.cross_y
      MobiusStrip.cross_z
    rw [hydu i j hj, hzdu i j hj, hydv i j hi hj, hzdv i j hi hj]
    simp
  show simpson s.dv s.n (fun i => simpson s.du s.n (fun j => s.cross_mag i j)) = 0
  have hinner : ∀ i, i < 2 → simpson s.du s.n (fun j => s.cross_mag i j) = 0 := by
    intro i hi
    rw [show s.n = 2 from rfl, simpson_two]
    rw [hmag i 0 hi (by norm_num), hmag i 1 hi (by norm_num)]
    ring
  rw [show s.n = 2 from rfl, simpson_two]
  rw [hinner 0 (by norm_num), hinner 1 (by norm_num)]
  ring

/-- Claim C6: for every valid shape (R > 0, w > 0, n ≥ 2),
`compute_edge_length` returns exactly twice the one-edge arc-length
estimate of the boundary curve sampled at v = +w/2, and this total is
strictly positive. -/
theorem C6_edge_length_double_and_positive (s : MobiusStrip)
    (hR : 0 < s.R) (hw : 0 < s.w) (hn : 2 ≤ s.n) :
    s.compute_edge_length = 2 * s.edgeLengthAt (s.w / 2)
    ∧ 0 < s.compute_edge_length := by
  have hN : (2 : ℝ) ≤ (s.n : ℝ) := by exact_mod_cast hn
  have hpi := Real.pi_pos
  have hh : 0 < s.edgeH := by
    unfold MobiusStrip.edgeH
    exact div_pos (by linarith) (by linarith)
  have hu0 : s.u_edge 0 = 0 := by
    unfold MobiusStrip.u_edge linspace
    norm_num
  have hu1 : s.u_edge 1 = 2 * π / ((s.n : ℝ) - 1) := by
    unfold MobiusStrip.u_edge linspace
    push_cast
    ring
  have hdl0 : 0 < s.edgeDl (s.w / 2) 0 := by
    unfold MobiusStrip.edgeDl
    rw [npGradient_zero, npGradient_zero, npGradient_zero]
    apply Real.sqrt_pos.mpr
    rcases eq_or_lt_of_le hn with h2 | h3
    · -- n = 2: the x coordinates of the first and last edge samples
      -- differ by w, since u runs from 0 to 2π and cos(π) = -1.
      have hu1' : s.u_edge 1 = 2 * π := by
        rw [hu1, ← h2]
        norm_num
      have hX : s.edgeX (s.w / 2) 1 - s.edgeX (s.w / 2) 0 = -s.w := by
        unfold MobiusStrip.edgeX MobiusStrip.parametricX
        rw [hu0, hu1', show 2 * π / 2 = π by ring, Real.cos_pi, Real.cos_two_pi]
        norm_num
        ring
      rw [hX]
      have hne : -s.w / s.edgeH ≠ 0 := div_ne_zero (by linarith) (ne_of_gt hh)
      have h1 := pow_two_pos_of_ne_zero hne
      have h2y := sq_nonneg ((s.edgeY (s.w / 2) 1 - s.edgeY (s.w / 2) 0) / s.edgeH)
      have h2z := sq_nonneg ((s.edgeZ (s.w / 2) 1 - s.edgeZ (s.w / 2) 0) / s.edgeH)
      linarith
    · -- n ≥ 3: the z coordinate of the second edge sample is positive,
      -- since u₁/2 = π/(n-1) lies strictly between 0 and π.
      have hN3 : (3 : ℝ) ≤ (s.n : ℝ) := by exact_mod_cast h3
      have hsin : 0 < Real.sin (π / ((s.n : ℝ) - 1)) := by
        apply Real.sin_pos_of_pos_of_lt_pi
        · exact div_pos hpi (by linarith)
        · rw [div_lt_iff₀ (by linarith)]
          nlinarith
      have hZ : s.edgeZ (s.w / 2) 1 - s.edgeZ (s.w / 2) 0
          = s.w / 2 * Real.sin (π / ((s.n : ℝ) - 1)) := by
        unfold MobiusStrip.edgeZ MobiusStrip.parametricZ
        rw [hu0, hu1, show 2 * π / ((s.n : ℝ) - 1) / 2 = π / ((s.n : ℝ) - 1) by ring]
        norm_num
      rw [hZ]
      have hne : s.w / 2 * Real.sin (π / ((s.n : ℝ) - 1)) / s.edgeH ≠ 0 :=
        div_ne_zero (by positivity) (ne_of_gt hh)
      have h1 := pow_two_pos_of_ne_zero hne
      have h2x := sq_nonneg ((s.edgeX (s.w / 2) 1 - s.edgeX (s.w / 2) 0) / s.edgeH)
      have h2y := sq_nonneg ((s.edgeY (s.w / 2) 1 - s.edgeY (s.w / 2) 0) / s.edgeH)
      linarith
  have hpos : 0 < s.edgeLengthAt (s.w / 2) :=
    simpson_pos_head hh (fun i => Real.sqrt_nonneg _) hdl0 hn
  refine ⟨rfl, ?_⟩
  unfold MobiusStrip.compute_edge_length
  linarith

/-- Witness for C6 at the valid shape R = 1, w = 1, n = 2. -/
theorem C6_edge_length_double_and_positive_witness :
    MobiusStrip.compute_edge_length { R := 1, w := 1, n := 2 }
      = 2 * MobiusStrip.edgeLengthAt { R := 1, w := 1, n := 2 } (1 / 2)
    ∧ 0 < MobiusStrip.compute_edge_length { R := 1, w := 1, n := 2 } :=
  C6_edge_length_double_and_positive { R := 1, w := 1, n := 2 }
    (by norm_num) (by norm_num) (by norm_num)

/-- The uniform u grid satisfies u_(n-1-j) = 2π - u_j. -/
theorem u_edge_reflect (s : MobiusStrip) {j : ℕ} (hn : 2 ≤ s.n) (hj : j < s.n) :
    s.u_edge (s.n - 1 - j) = 2 * π - s.u_edge j := by
  unfold MobiusStrip.u_edge linspace
  have hc1 : ((s.n - 1 - j : ℕ) : ℝ) = (s.n : ℝ) - 1 - (j : ℝ) := by
    rw [Nat.cast_sub (by omega), Nat.cast_sub (by omega)]
    norm_num
  rw [hc1]
  have hN : (2 : ℝ) ≤ (s.n : ℝ) := by exact_mod_cast hn
  have hN1 : (s.n : ℝ) - 1 ≠ 0 := by linarith
  field_simp
  ring

/-- Reflection symmetry of the sampled edge curves: the curve at -v is,
sample by sample, the curve at +v traversed in reverse and reflected by
(x, y, z) ↦ (x, -y, -z). -/
theorem edge_reflect_coords (s : MobiusStrip) (ve : ℝ) {j : ℕ}
    (hn : 2 ≤ s.n) (hj : j < s.n) :
    s.edgeX (-ve) j = s.edgeX ve (s.n - 1 - j)
    ∧ s.edgeY (-ve) j = -s.edgeY ve (s.n - 1 - j)
    ∧ s.edgeZ (-ve) j = -s.edgeZ ve (s.n - 1 - j) := by
  have hrev := u_edge_reflect s hn hj
  unfold MobiusStrip.edgeX MobiusStrip.edgeY MobiusStrip.edgeZ
    MobiusStrip.parametricX MobiusStrip.parametricY MobiusStrip.parametricZ
  rw [hrev, show (2 * π - s.u_edge j) / 2 = π - s.u_edge j / 2 by ring,
    Real.cos_pi_sub, Real.sin_pi_sub, Real.cos_two_pi_sub, Real.sin_two_pi_sub]
  exact ⟨by ring, by ring, by ring⟩

/-- The differential-length sequence of the -v edge is the reverse of
that of the +v edge: reversal flips the sign of every finite difference
and the (x, y, z) ↦ (x, -y, -z) reflection flips two signs, all of which
are absorbed by the squares under the square root. -/
theorem edgeDl_reflect (s : MobiusStrip) (ve : ℝ) {i : ℕ}
    (hn : 2 ≤ s.n) (hi : i < s.n) :
    s.edgeDl (-ve) i = s.edgeDl ve (s.n - 1 - i) := by
  unfold MobiusStrip.edgeDl
  have hgx : npGradient s.edgeH s.n (s.edgeX (-ve)) i
      = -npGradient s.edgeH s.n (s.edgeX ve) (s.n - 1 - i) := by
    rw [npGradient_congr hn (fun j hj => (edge_reflect_coords s ve hn hj).1) hi]
    exact npGradient_reflect hn hi
  have hgy : npGradient s.edgeH s.n (s.edgeY (-ve)) i
      = npGradient s.edgeH s.n (s.edgeY ve) (s.n - 1 - i) := by
    rw [npGradient_congr hn (fun j hj => (edge_reflect_coords s ve hn hj).2.1) hi]
    rw [npGradient_neg s.edgeH s.n (fun k => s.edgeY ve (s.n - 1 - k)) i]
    rw [npGradient_reflect hn hi]
    ring
  have hgz : npGradient s.edgeH s.n (s.edgeZ (-ve)) i
      = npGradient s.edgeH s.n (s.edgeZ ve) (s.n - 1 - i) := by
    rw [npGradient_congr hn (fun j hj => (edge_reflect_coords s ve hn hj).2.2) hi]
    rw [npGradient_neg s.edgeH s.n (fun k => s.edgeZ ve (s.n - 1 - k)) i]
    rw [npGradient_reflect hn hi]
    ring
  rw [hgx, hgy, hgz]
  congr 1
  ring

/-- Claim C7 (amended): the one-edge arc-length estimates at v = +w/2
and v = -w/2 are exactly equal in real arithmetic whenever n is odd (the
standard composite-Simpson case) or n = 2 (the trapezoid fallback).  For
even n ≥ 4 the asymmetric even-sample scipy correction breaks the
symmetry and the two estimates differ; see the counterexample at n = 4. -/
theorem C7_edge_symmetry_odd (s : MobiusStrip)
    (hR : 0 < s.R) (hw : 0 < s.w) (hn : 2 ≤ s.n)
    (hodd : s.n % 2 = 1 ∨ s.n = 2) :
    s.edgeLengthAt (s.w / 2) = s.edgeLengthAt (-(s.w / 2)) := by
  unfold MobiusStrip.edgeLengthAt
  have h1 : simpson s.edgeH s.n (s.edgeDl (-(s.w / 2)))
      = simpson s.edgeH s.n (fun i => s.edgeDl (s.w / 2) (s.n - 1 - i)) :=
    simpson_congr (fun i hi => edgeDl_reflect s (s.w / 2) hn hi)
  rw [h1, simpson_reflect hodd]

/-- Witness for C7 (amended) at the valid shape R = 1, w = 1, n = 3. -/
theorem C7_edge_symmetry_odd_witness :
    MobiusStrip.edgeLengthAt { R := 1, w := 1, n := 3 } (1 / 2)
      = MobiusStrip.edgeLengthAt { R := 1, w := 1, n := 3 } (-(1 / 2)) :=
  C7_edge_symmetry_odd { R := 1, w := 1, n := 3 }
    (by norm_num) (by norm_num) (by norm_num) (Or.inl (by norm_num))

theorem cos_two_pi_div_three : Real.cos (2 * π / 3) = -(1 / 2) := by
  rw [show 2 * π / 3 = π - π / 3 by ring, Real.cos_pi_sub, Real.cos_pi_div_three]

theorem sin_two_pi_div_three : Real.sin (2 * π / 3) = Real.sqrt 3 / 2 := by
  rw [show 2 * π / 3 = π - π / 3 by ring, Real.sin_pi_sub, Real.sin_pi_div_three]

theorem cos_four_pi_div_three : Real.cos (4 * π / 3) = -(1 / 2) := by
  rw [show 4 * π / 3 = 2 * π - 2 * π / 3 by ring, Real.cos_two_pi_sub,
    cos_two_pi_div_three]

theorem sin_four_pi_div_three : Real.sin (4 * π / 3) = -(Real.sqrt 3 / 2) := by
  rw [show 4 * π / 3 = 2 * π - 2 * π / 3 by ring, Real.sin_two_pi_sub,
    sin_two_pi_div_three]

theorem c7u (j : ℕ) :
    MobiusStrip.u_edge { R := 1, w := 1, n := 4 } j = j * (2 * π / 3) := by
  unfold MobiusStrip.u_edge linspace
  norm_num
  ring

theorem c7X0 : MobiusStrip.edgeX { R := 1, w := 1, n := 4 } (1 / 2) 0 = 3 / 2 := by
  unfold MobiusStrip.edgeX MobiusStrip.parametricX
  rw [c7u 0]
  norm_num

theorem c7X1 : MobiusStrip.edgeX { R := 1, w := 1, n := 4 } (1 / 2) 1 = -(5 / 8) := by
  unfold MobiusStrip.edgeX MobiusStrip.parametricX
  rw [c7u 1, show ((1 : ℕ) : ℝ) * (2 * π / 3) = 2 * π / 3 by push_cast; ring,
    show 2 * π / 3 / 2 = π / 3 by ring, Real.cos_pi_div_three, cos_two_pi_div_three]
  norm_num

theorem c7X2 : MobiusStrip.edgeX { R := 1, w := 1, n := 4 } (1 / 2) 2 = -(3 / 8) := by
  unfold MobiusStrip.edgeX MobiusStrip.parametricX
  rw [c7u 2, show ((2 : ℕ) : ℝ) * (2 * π / 3) = 4 * π / 3 by push_cast; ring,
    show 4 * π / 3 / 2 = 2 * π / 3 by ring, cos_two_pi_div_three,
    cos_four_pi_div_three]
  norm_num

theorem c7X3 : MobiusStrip.edgeX { R := 1, w := 1, n := 4 } (1 / 2) 3 = 1 / 2 := by
  unfold MobiusStrip.edgeX MobiusStrip.parametricX
  rw [c7u 3, show ((3 : ℕ) : ℝ) * (2 * π / 3) = 2 * π by push_cast; ring,
    show 2 * π / 2 = π by ring, Real.cos_pi, Real.cos_two_pi]
  norm_num

theorem c7Y0 : MobiusStrip.edgeY { R := 1, w := 1, n := 4 } (1 / 2) 0 = 0 := by
  unfold MobiusStrip.edgeY MobiusStrip.parametricY
  rw [c7u 0]
  norm_num

theorem c7Y1 : MobiusStrip.edgeY { R := 1, w := 1, n := 4 } (1 / 2) 1
    = 5 * Real.sqrt 3 / 8 := by
  unfold MobiusStrip.edgeY MobiusStrip.parametricY
  rw [c7u 1, show ((1 : ℕ) : ℝ) * (2 * π / 3) = 2 * π / 3 by push_cast; ring,
    show 2 * π / 3 / 2 = π / 3 by ring, Real.cos_pi_div_three, sin_two_pi_div_three]
  norm_num
  ring

theorem c7Y2 : MobiusStrip.edgeY { R := 1, w := 1, n := 4 } (1 / 2) 2
    = -(3 * Real.sqrt 3 / 8) := by
  unfold MobiusStrip.edgeY MobiusStrip.parametricY
  rw [c7u 2, show ((2 : ℕ) : ℝ) * (2 * π / 3) = 4 * π / 3 by push_cast; ring,
    show 4 * π / 3 / 2 = 2 * π / 3 by ring, cos_two_pi_div_three,
    sin_four_pi_div_three]
  norm_num
  ring

theorem c7Y3 : MobiusStrip.edgeY { R := 1, w := 1, n := 4 } (1 / 2) 3 = 0 := by
  unfold MobiusStrip.edgeY MobiusStrip.parametricY
  rw [c7u 3, show ((3 : ℕ) : ℝ) * (2 * π / 3) = 2 * π by push_cast; ring,
    Real.sin_two_pi]
  norm_num

theorem c7Z0 : MobiusStrip.edgeZ { R := 1, w := 1, n := 4 } (1 / 2) 0 = 0 := by
  unfold MobiusStrip.edgeZ MobiusStrip.parametricZ
  rw [c7u 0]
  norm_num

theorem c7Z1 : MobiusStrip.edgeZ { R := 1, w := 1, n := 4 } (1 / 2) 1
    = Real.sqrt 3 / 4 := by
  unfold MobiusStrip.edgeZ MobiusStrip.parametricZ
  rw [c7u 1, show ((1 : ℕ) : ℝ) * (2 * π / 3) = 2 * π / 3 by push_cast; ring,
    show 2 * π / 3 / 2 = π / 3 by ring, Real.sin_pi_div_three]
  ring

theorem c7Z2 : MobiusStrip.edgeZ { R := 1, w := 1, n := 4 } (1 / 2) 2
    = Real.sqrt 3 / 4 := by
  unfold MobiusStrip.edgeZ MobiusStrip.parametricZ
  rw [c7u 2, show ((2 : ℕ) : ℝ) * (2 * π / 3) = 4 * π / 3 by push_cast; ring,
    show 4 * π / 3 / 2 = 2 * π / 3 by ring, sin_two_pi_div_three]
  ring

theorem c7Z3 : MobiusStrip.edgeZ { R := 1, w := 1, n := 4 } (1 / 2) 3 = 0 := by
  unfold MobiusStrip.edgeZ MobiusStrip.parametricZ
  rw [c7u 3, show ((3 : ℕ) : ℝ) * (2 * π / 3) = 2 * π by push_cast; ring,
    show 2 * π / 2 = π by ring, Real.sin_pi]
  ring

/-- Closed form for a differential-length entry with uniform step. -/
theorem dl_formula {a b c S hh : ℝ} (hS : a ^ 2 + b ^ 2 + c ^ 2 = S)
    (hhp : 0 < hh) (hSnn : 0 ≤ S) :
    Real.sqrt ((a / hh) ^ 2 + (b / hh) ^ 2 + (c / hh) ^ 2) = Real.sqrt S / hh := by
  have he : (a / hh) ^ 2 + (b / hh) ^ 2 + (c / hh) ^ 2 = S / hh ^ 2 := by
    rw [← hS]
    ring
  rw [he, sqrt_div_sq hSnn hhp]

theorem simpson_four (dx : ℝ) (g : ℕ → ℝ) :
    simpson dx 4 g = dx / 3 * (g 0 + 4 * g 1 + g 2)
      + (5 * dx / 12 * g 3 + 2 * dx / 3 * g 2 - dx / 12 * g 1) := by
  unfold simpson
  norm_num
  unfold basicSimpson
  rw [Finset.sum_range_one]

theorem c7edgeH : MobiusStrip.edgeH { R := 1, w := 1, n := 4 } = 2 * π / 3 := by
  unfold MobiusStrip.edgeH
  norm_num

theorem c7sqrt3 : Real.sqrt 3 ^ 2 = 3 := Real.sq_sqrt (by norm_num)

theorem c7dl0 : MobiusStrip.edgeDl { R := 1, w := 1, n := 4 } (1 / 2) 0
    = Real.sqrt (47 / 8) / (2 * π / 3) := by
  unfold MobiusStrip.edgeDl
  rw [npGradient_zero, npGradient_zero, npGradient_zero, c7edgeH,
    c7X0, c7X1, c7Y0, c7Y1, c7Z0, c7Z1]
  refine dl_formula ?_ (by positivity) (by norm_num)
  linear_combination (29 / 64) * c7sqrt3

theorem c7dl1 : MobiusStrip.edgeDl { R := 1, w := 1, n := 4 } (1 / 2) 1
    = Real.sqrt (33 / 8) / (2 * (2 * π / 3)) := by
  unfold MobiusStrip.edgeDl
  rw [show MobiusStrip.n { R := 1, w := 1, n := 4 } = 4 from rfl]
  rw [npGradient_interior _ _ (by norm_num) (by norm_num),
    npGradient_interior _ _ (by norm_num) (by norm_num),
    npGradient_interior _ _ (by norm_num) (by norm_num), c7edgeH]
  norm_num only
  rw [c7X0, c7X2, c7Y0, c7Y2, c7Z0, c7Z2]
  refine dl_formula ?_ (by positivity) (by norm_num)
  linear_combination (13 / 64) * c7sqrt3

theorem c7dl2 : MobiusStrip.edgeDl { R := 1, w := 1, n := 4 } (1 / 2) 2
    = Real.sqrt (21 / 8) / (2 * (2 * π / 3)) := by
  unfold MobiusStrip.edgeDl
  rw [show MobiusStrip.n { R := 1, w := 1, n := 4 } = 4 from rfl]
  rw [npGradient_interior _ _ (by norm_num) (by norm_num),
    npGradient_interior _ _ (by norm_num) (by norm_num),
    npGradient_interior _ _ (by norm_num) (by norm_num), c7edgeH]
  norm_num only
  rw [c7X1, c7X3, c7Y1, c7Y3, c7Z1, c7Z3]
  refine dl_formula ?_ (by positivity) (by norm_num)
  linear_combination (29 / 64) * c7sqrt3

theorem c7dl3 : MobiusStrip.edgeDl { R := 1, w := 1, n := 4 } (1 / 2) 3
    = Real.sqrt (11 / 8) / (2 * π / 3) := by
  unfold MobiusStrip.edgeDl
  rw [show MobiusStrip.n { R := 1, w := 1, n := 4 } = 4 from rfl]
  rw [show (3 : ℕ) = 4 - 1 by norm_num]
  rw [npGradient_last _ _ (by norm_num), npGradient_last _ _ (by norm_num),
    npGradient_last _ _ (by norm_num), c7edgeH]
  norm_num only
  rw [c7X2, c7X3, c7Y2, c7Y3, c7Z2, c7Z3]
  refine dl_formula ?_ (by positivity) (by norm_num)
  linear_combination (13 / 64) * c7sqrt3

/-- Claim C7 is false of the code as stated: at the valid shape
R = 1, w = 1, n = 4 the one-edge arc-length estimates at v = +w/2 and
v = -w/2 differ by more than 1/100 while both are below 4, so they are
not equal to 1e-9 relative tolerance (and a fortiori not exactly equal
in real arithmetic).  The cause is the asymmetric even-sample Simpson
weighting (5dx/12, 2dx/3, -dx/12 on the last three samples): the -w/2
differential-length sequence is exactly the reverse of the +w/2 one, but
the even-n quadrature weights are not reversal-invariant. -/
theorem C7_counterexample :
    MobiusStrip.edgeLengthAt { R := 1, w := 1, n := 4 } (-(1 / 2))
        - MobiusStrip.edgeLengthAt { R := 1, w := 1, n := 4 } (1 / 2) > 1 / 100
    ∧ MobiusStrip.edgeLengthAt { R := 1, w := 1, n := 4 } (-(1 / 2)) < 4 := by
  have hπ := Real.pi_pos
  have hp : (2 * π / 3 : ℝ) ≠ 0 := by positivity
  have hr0 : MobiusStrip.edgeDl { R := 1, w := 1, n := 4 } (-(1 / 2)) 0
      = MobiusStrip.edgeDl { R := 1, w := 1, n := 4 } (1 / 2) 3 := by
    have h := edgeDl_reflect { R := 1, w := 1, n := 4 } (1 / 2) (by norm_num)
      (show (0 : ℕ) < MobiusStrip.n { R := 1, w := 1, n := 4 } by norm_num)
    norm_num at h
    exact h
  have hr1 : MobiusStrip.edgeDl { R := 1, w := 1, n := 4 } (-(1 / 2)) 1
      = MobiusStrip.edgeDl { R := 1, w := 1, n := 4 } (1 / 2) 2 := by
    have h := edgeDl_reflect { R := 1, w := 1, n := 4 } (1 / 2) (by norm_num)
      (show (1 : ℕ) < MobiusStrip.n { R := 1, w := 1, n := 4 } by norm_num)
    norm_num at h
    exact h
  have hr2 : MobiusStrip.edgeDl { R := 1, w := 1, n := 4 } (-(1 / 2)) 2
      = MobiusStrip.edgeDl { R := 1, w := 1, n := 4 } (1 / 2) 1 := by
    have h := edgeDl_reflect { R := 1, w := 1, n := 4 } (1 / 2) (by norm_num)
      (show (2 : ℕ) < MobiusStrip.n { R := 1, w := 1, n := 4 } by norm_num)
    norm_num at h
    exact h
  have hr3 : MobiusStrip.edgeDl { R := 1, w := 1, n := 4 } (-(1 / 2)) 3
      = MobiusStrip.edgeDl { R := 1, w := 1, n := 4 } (1 / 2) 0 := by
    have h := edgeDl_reflect { R := 1, w := 1, n := 4 } (1 / 2) (by norm_num)
      (show (3 : ℕ) < MobiusStrip.n { R := 1, w := 1, n := 4 } by norm_num)
    norm_num at h
    exact h
  have heplus : MobiusStrip.edgeLengthAt { R := 1, w := 1, n := 4 } (1 / 2)
      = Real.sqrt (47 / 8) / 3 + 5 / 8 * Real.sqrt (33 / 8)
        + Real.sqrt (21 / 8) / 2 + 5 / 12 * Real.sqrt (11 / 8) := by
    unfold MobiusStrip.edgeLengthAt
    rw [c7edgeH, show MobiusStrip.n { R := 1, w := 1, n := 4 } = 4 from rfl,
      simpson_four, c7dl0, c7dl1, c7dl2, c7dl3]
    field_simp
    ring
  have heminus : MobiusStrip.edgeLengthAt { R := 1, w := 1, n := 4 } (-(1 / 2))
      = Real.sqrt (11 / 8) / 3 + 5 / 8 * Real.sqrt (21 / 8)
        + Real.sqrt (33 / 8) / 2 + 5 / 12 * Real.sqrt (47 / 8) := by
    unfold MobiusStrip.edgeLengthAt
    rw [c7edgeH, show MobiusStrip.n { R := 1, w := 1, n := 4 } = 4 from rfl,
      simpson_four, hr0, hr1, hr2, hr3, c7dl0, c7dl1, c7dl2, c7dl3]
    field_simp
    ring
  have hA1 : (2.42 : ℝ) < Real.sqrt (47 / 8) := by
    rw [Real.lt_sqrt (by norm_num)]
    norm_num
  have hA2 : Real.sqrt (47 / 8) < (2.43 : ℝ) := by
    rw [Real.sqrt_lt' (by norm_num)]
    norm_num
  have hB2 : Real.sqrt (33 / 8) < (2.04 : ℝ) := by
    rw [Real.sqrt_lt' (by norm_num)]
    norm_num
  have hC1 : (1.62 : ℝ) < Real.sqrt (21 / 8) := by
    rw [Real.lt_sqrt (by norm_num)]
    norm_num
  have hC2 : Real.sqrt (21 / 8) < (1.63 : ℝ) := by
    rw [Real.sqrt_lt' (by norm_num)]
    norm_num
  have hD2 : Real.sqrt (11 / 8) < (1.18 : ℝ) := by
    rw [Real.sqrt_lt' (by norm_num)]
    norm_num
  constructor
  · rw [heminus, heplus]
    linarith
  · rw [heminus]
    linarith

/-- Witness for C2 (amended) at the valid shape R = 1, w = 1, n = 3 with
j = 0. -/
theorem C2_grid_uniform_but_steps_mismatch_witness :
    MobiusStrip.v { R := 1, w := 1, n := 3 } 0 = -(1 / 2)
    ∧ MobiusStrip.v { R := 1, w := 1, n := 3 } (3 - 1) = 1 / 2
    ∧ MobiusStrip.v { R := 1, w := 1, n := 3 } (0 + 1)
        - MobiusStrip.v { R := 1, w := 1, n := 3 } 0 = 1 / (((3 : ℕ) : ℝ) - 1)
    ∧ MobiusStrip.u { R := 1, w := 1, n := 3 } 0 = 0
    ∧ MobiusStrip.u { R := 1, w := 1, n := 3 } (3 - 1) = 2 * π
    ∧ MobiusStrip.u { R := 1, w := 1, n := 3 } (0 + 1)
        - MobiusStrip.u { R := 1, w := 1, n := 3 } 0 = 2 * π / (((3 : ℕ) : ℝ) - 1)
    ∧ MobiusStrip.du { R := 1, w := 1, n := 3 } = 2 * π / ((3 : ℕ) : ℝ)
    ∧ MobiusStrip.dv { R := 1, w := 1, n := 3 } = 1 / ((3 : ℕ) : ℝ)
    ∧ MobiusStrip.dv { R := 1, w := 1, n := 3 } ≠ 1 / (((3 : ℕ) : ℝ) - 1)
    ∧ MobiusStrip.du { R := 1, w := 1, n := 3 } ≠ 2 * π / (((3 : ℕ) : ℝ) - 1) :=
  C2_grid_uniform_but_steps_mismatch { R := 1, w := 1, n := 3 } 0
    (by norm_num) (by norm_num) (by norm_num) (by norm_num)
